import Mathlib

set_option maxHeartbeats 1000000

/-!
Shallow embedding of `src/v1/wd_digest.c` (uadk): the digest session layer,
its cookie (slot) pool, session lifecycle on a shared queue, the submit /
receive protocol and the completion poller.

External collaborators (the hardware-queue transport `wd_send` / `wd_recv`,
the caller-supplied allocator, `malloc`) are modelled as oracle parameters:
each call site of the embedding receives the outcome the collaborator would
have produced.  Pointers are replaced by indices / `Option` (a `none` models
a NULL pointer).  Machine integers are `Nat` / `Int`; the `__u64` streaming
accumulator wraps modulo `2 ^ 64` where the source adds to it.
-/

namespace WdDigest

/-- `WD_SUCCESS` from `wd.h` (header not in the sources; the numeric values
of the error codes are immaterial to the claims, only their distinctness). -/
def WD_SUCCESS : Int := 0

/-- `WD_EINVAL` (invalid input), `wd.h`. -/
def WD_EINVAL : Int := 22

/-- `WD_EBUSY` (no free slot / resource busy), `wd.h`. -/
def WD_EBUSY : Int := 16

/-- `WD_ETIMEDOUT` (synchronous receive retry ceiling exceeded), `wd.h`. -/
def WD_ETIMEDOUT : Int := 110

/-- `WD_HW_ERR` (hardware-reported fault attached to a reply), `wd.h`. -/
def WD_HW_ERR : Int := 64

/-- `WD_DIGEST` algorithm-type tag written into every cookie message. -/
def WD_DIGEST : Nat := 2

/-- `#define WD_DIGEST_CTX_MSG_NUM 64` — cookie-pool capacity. -/
def WD_DIGEST_CTX_MSG_NUM : Nat := 64

/-- `#define WD_DIGEST_MAX_CTX 256` — maximum sessions per queue. -/
def WD_DIGEST_MAX_CTX : Nat := 256

/-- `#define MAX_HMAC_KEY_SIZE 128` — fixed key-buffer capacity. -/
def MAX_HMAC_KEY_SIZE : Nat := 128

/-- `#define MAX_DIGEST_RETRY_CNT 20000000` — synchronous receive retry ceiling. -/
def MAX_DIGEST_RETRY_CNT : Nat := 20000000

/-- Digest mode (`WCRYPTO_DIGEST_NORMAL` / `WCRYPTO_DIGEST_HMAC`). -/
inductive DigestMode where
  | normal
  | hmac
deriving DecidableEq

/-- `struct wd_mm_ops` as far as this file observes it: which callbacks are
non-NULL (`alloc`, `free`, `dma_map`, `dma_unmap`) and the owning identity
`usr` that `wcrypto_create_digest_ctx` compares. -/
structure MmOps where
  alloc : Bool
  free : Bool
  dma_map : Bool
  dma_unmap : Bool
  usr : Nat
deriving DecidableEq

/-- The all-zero `wd_mm_ops`, as left by `memset(&qinfo->ops, 0, ...)`. -/
def zeroOps : MmOps := ⟨false, false, false, false, 0⟩

/-- `struct wcrypto_digest_ctx_setup`: algorithm selector, mode, data format,
whether a completion callback was supplied (`cb` non-NULL), allocator ops. -/
structure DigestSetup where
  alg : Nat
  mode : DigestMode
  data_fmt : Nat
  cb : Bool
  ops : MmOps
deriving DecidableEq

/-- The part of `struct q_info` this file touches: the registered allocator
configuration and the active-session counter (a signed C `int`). -/
structure QInfo where
  ops : MmOps
  ctx_num : Int
deriving DecidableEq

/-- `struct wd_queue` as observed here: the capability algorithm string
compared by `strncmp(q->capa.alg, "digest", ...)` and the queue info. -/
structure WdQueue where
  alg : String
  info : QInfo
deriving DecidableEq

/-- `struct wcrypto_cb_tag` (embedded in the cookie tag): the session id and
the opaque user tag stored for asynchronous calls.  The `ctx` back-pointer of
the source is represented by the session id (arena/index pattern). -/
structure WcryptoTag where
  ctx_id : Nat
  tag : Option Nat
deriving DecidableEq

/-- `struct wcrypto_digest_tag`. -/
structure DigestTag where
  wcrypto_tag : WcryptoTag
  long_data_len : Nat
deriving DecidableEq

/-- `struct wcrypto_digest_msg`: the hardware request/response record.
Buffer pointers are opaque `Nat` descriptors; `usr_data` holds the index of
the owning cookie (in the source it is the address of the cookie's tag). -/
structure DigestMsg where
  alg_type : Nat
  alg : Nat
  mode : DigestMode
  data_fmt : Nat
  has_next : Bool
  key : Option (List Nat)
  key_bytes : Nat
  inBuf : Nat
  in_bytes : Nat
  outBuf : Nat
  out_bytes : Nat
  result : Int
  usr_data : Nat
deriving DecidableEq

/-- `struct wcrypto_digest_cookie`. -/
structure DigestCookie where
  tag : DigestTag
  msg : DigestMsg
deriving DecidableEq

/-- `struct wcrypto_digest_ctx`.  The cookie array and occupancy bitmap are
total functions on `Fin 64` (= `WD_DIGEST_CTX_MSG_NUM`).  `key = none`
models a NULL key pointer; `some buf` a buffer holding the bytes `buf`. -/
structure DigestCtx where
  cookies : Fin 64 → DigestCookie
  cstatus : Fin 64 → Bool
  cidx : Fin 64
  ctx_id : Nat
  key : Option (List Nat)
  key_bytes : Nat
  io_bytes : Nat
  setup : DigestSetup
deriving DecidableEq

/-- `struct wcrypto_digest_op_data`. -/
structure OpData where
  inBuf : Nat
  in_bytes : Nat
  outBuf : Nat
  out_bytes : Nat
  has_next : Bool
  status : Int
deriving DecidableEq

/-! ## Cookie (slot) pool -/

/-- The scan loop of `get_digest_cookie`: starting at `idx`, test-and-set
each occupancy flag, wrapping at 64; give up (`none`) after `fuel` failed
tests (`cnt == WD_DIGEST_CTX_MSG_NUM` in the source).  A failed
`__atomic_test_and_set` on an occupied slot leaves it occupied, so the pure
scan only reports the claimed index. -/
def scanAcquire (cst : Fin 64 → Bool) (idx : Fin 64) : Nat → Option (Fin 64)
  | 0 => none
  | fuel + 1 => if cst idx then scanAcquire cst (idx + 1) fuel else some idx

/-- `get_digest_cookie`: claim a free cookie, mark it occupied, record the
claimed index as the new rotating hint `cidx`; `none` when every slot is
occupied after a full scan. -/
def get_digest_cookie (ctx : DigestCtx) : Option (DigestCtx × Fin 64) :=
  match scanAcquire ctx.cstatus ctx.cidx WD_DIGEST_CTX_MSG_NUM with
  | none => none
  | some i =>
    some ({ ctx with cstatus := Function.update ctx.cstatus i true, cidx := i }, i)

/-- `put_digest_cookie`: release the slot at position `idx` (the source
derives `idx` from the cookie pointer).  Out-of-range positions are caught
by the bound check: the source prints `"digest cookie not exist!"` and
returns without mutation — the returned `Bool` is `true` exactly when that
error message is emitted.  The C function returns `void`, so no error value
reaches the caller; an in-range release simply clears the flag (even if the
slot was already free). -/
def put_digest_cookie (ctx : DigestCtx) (idx : Int) : DigestCtx × Bool :=
  if h : idx < 0 ∨ (WD_DIGEST_CTX_MSG_NUM : Int) ≤ idx then
    (ctx, true)
  else
    ({ ctx with
        cstatus := Function.update ctx.cstatus
          ⟨idx.toNat, by simp only [WD_DIGEST_CTX_MSG_NUM] at h; omega⟩ false },
     false)

/-- Internal release with a known-valid index (every internal call of
`put_digest_cookie` in the source passes a pointer into the pool). -/
def releaseCookie (ctx : DigestCtx) (i : Fin 64) : DigestCtx :=
  (put_digest_cookie ctx (i.val : Int)).1

theorem releaseCookie_eq (ctx : DigestCtx) (i : Fin 64) :
    releaseCookie ctx i = { ctx with cstatus := Function.update ctx.cstatus i false } := by
  have hi := i.isLt
  simp only [releaseCookie, put_digest_cookie, WD_DIGEST_CTX_MSG_NUM]
  rw [dif_neg (by push_cast; omega)]
  simp

/-! ## Pool lemmas -/

/-- The set of free slot positions of an occupancy bitmap. -/
def freeOf (cst : Fin 64 → Bool) : Finset (Fin 64) :=
  Finset.univ.filter fun i => cst i = false

/-- The set of free slot positions of a session's pool. -/
def freeSet (ctx : DigestCtx) : Finset (Fin 64) := freeOf ctx.cstatus

theorem mem_freeOf {cst : Fin 64 → Bool} {i : Fin 64} :
    i ∈ freeOf cst ↔ cst i = false := by
  simp [freeOf]

theorem freeOf_update_true (cst : Fin 64 → Bool) (i : Fin 64) :
    freeOf (Function.update cst i true) = (freeOf cst).erase i := by
  ext j
  by_cases h : j = i
  · subst h; simp [mem_freeOf, Function.update_same]
  · simp [mem_freeOf, Finset.mem_erase, h, Function.update_noteq h]

theorem freeOf_update_false (cst : Fin 64 → Bool) (i : Fin 64) :
    freeOf (Function.update cst i false) = insert i (freeOf cst) := by
  ext j
  by_cases h : j = i
  · subst h; simp [mem_freeOf, Function.update_same]
  · simp [mem_freeOf, Finset.mem_insert, h, Function.update_noteq h]

theorem scanAcquire_some {cst : Fin 64 → Bool} :
    ∀ {fuel : Nat} {idx j : Fin 64}, scanAcquire cst idx fuel = some j → cst j = false := by
  intro fuel
  induction fuel with
  | zero => intro idx j h; simp [scanAcquire] at h
  | succ n ih =>
    intro idx j h
    by_cases hc : cst idx
    · exact ih (by simpa [scanAcquire, hc] using h)
    · have : idx = j := by simpa [scanAcquire, hc] using h
      subst this
      simpa using hc

theorem scanAcquire_none {cst : Fin 64 → Bool} :
    ∀ {fuel : Nat} {idx : Fin 64}, scanAcquire cst idx fuel = none →
      ∀ k < fuel, cst (idx + (k : Fin 64)) = true := by
  intro fuel
  induction fuel with
  | zero => intro idx _ k hk; omega
  | succ n ih =>
    intro idx h k hk
    by_cases hc : cst idx
    · have h' := ih (by simpa [scanAcquire, hc] using h)
      match k with
      | 0 => simpa using hc
      | k' + 1 =>
        have := h' k' (by omega)
        have hcast : ((k' + 1 : Nat) : Fin 64) = (k' : Fin 64) + 1 := by push_cast; ring
        rw [hcast]
        calc cst (idx + ((k' : Fin 64) + 1)) = cst (idx + 1 + (k' : Fin 64)) := by ring_nf
        _ = true := this
    · simp [scanAcquire, hc] at h

/-- Every position is reached by a full scan of 64 steps. -/
theorem scanAcquire_none_all {cst : Fin 64 → Bool} {idx : Fin 64}
    (h : scanAcquire cst idx 64 = none) : ∀ j, cst j = true := by
  intro j
  have hk : idx + (((j - idx).val : Nat) : Fin 64) = j := by
    rw [Fin.cast_val_eq_self]; ring
  have := scanAcquire_none h (j - idx).val (j - idx).isLt
  rwa [hk] at this

theorem get_digest_cookie_none_iff {ctx : DigestCtx} :
    get_digest_cookie ctx = none ↔ ∀ j, ctx.cstatus j = true := by
  constructor
  · intro h
    cases hs : scanAcquire ctx.cstatus ctx.cidx WD_DIGEST_CTX_MSG_NUM with
    | none => exact scanAcquire_none_all (by simpa [WD_DIGEST_CTX_MSG_NUM] using hs)
    | some i => simp [get_digest_cookie, hs] at h
  · intro h
    cases hs : scanAcquire ctx.cstatus ctx.cidx WD_DIGEST_CTX_MSG_NUM with
    | none => simp [get_digest_cookie, hs]
    | some i =>
      have := scanAcquire_some hs
      rw [h i] at this
      simp at this

theorem get_digest_cookie_some {ctx c' : DigestCtx} {i : Fin 64}
    (h : get_digest_cookie ctx = some (c', i)) :
    ctx.cstatus i = false ∧
      c' = { ctx with cstatus := Function.update ctx.cstatus i true, cidx := i } := by
  cases hs : scanAcquire ctx.cstatus ctx.cidx WD_DIGEST_CTX_MSG_NUM with
  | none => simp [get_digest_cookie, hs] at h
  | some j =>
    simp only [get_digest_cookie, hs, Option.some.injEq, Prod.mk.injEq] at h
    obtain ⟨hc, hij⟩ := h
    subst hij
    exact ⟨scanAcquire_some hs, hc.symm⟩

theorem get_digest_cookie_of_nonempty {ctx : DigestCtx} (h : (freeSet ctx).Nonempty) :
    ∃ c' i, get_digest_cookie ctx = some (c', i) := by
  cases hg : get_digest_cookie ctx with
  | none =>
    obtain ⟨j, hj⟩ := h
    have := get_digest_cookie_none_iff.mp hg j
    rw [freeSet, mem_freeOf] at hj
    rw [hj] at this
    simp at this
  | some p => exact ⟨p.1, p.2, by simp [hg]⟩

/-- What one successful acquire does to the free set and the rest of the state. -/
theorem get_digest_cookie_some_spec {ctx c' : DigestCtx} {i : Fin 64}
    (h : get_digest_cookie ctx = some (c', i)) :
    i ∈ freeSet ctx ∧ freeSet c' = (freeSet ctx).erase i ∧
      c'.cookies = ctx.cookies ∧ c'.cidx = i ∧ c'.ctx_id = ctx.ctx_id ∧
      c'.key = ctx.key ∧ c'.key_bytes = ctx.key_bytes ∧
      c'.io_bytes = ctx.io_bytes ∧ c'.setup = ctx.setup := by
  obtain ⟨hfree, hc⟩ := get_digest_cookie_some h
  subst hc
  refine ⟨by rw [freeSet, mem_freeOf]; exact hfree, ?_, rfl, rfl, rfl, rfl, rfl, rfl, rfl⟩
  show freeOf (Function.update ctx.cstatus i true) = (freeOf ctx.cstatus).erase i
  exact freeOf_update_true _ _

/-- `N` serialized `get_digest_cookie` calls with no intervening release;
`none` as soon as one of them fails, otherwise the final state and the list
of claimed slots in order. -/
def acquireN (ctx : DigestCtx) : Nat → Option (DigestCtx × List (Fin 64))
  | 0 => some (ctx, [])
  | n + 1 =>
    match get_digest_cookie ctx with
    | none => none
    | some (c', i) =>
      match acquireN c' n with
      | none => none
      | some (cf, l) => some (cf, i :: l)

theorem acquireN_spec :
    ∀ (N : Nat) (ctx : DigestCtx), N ≤ (freeSet ctx).card →
      ∃ cf l, acquireN ctx N = some (cf, l) ∧ l.length = N ∧ l.Nodup ∧
        freeSet cf = freeSet ctx \ l.toFinset ∧ ∀ i ∈ l, i ∈ freeSet ctx := by
  intro N
  induction N with
  | zero =>
    intro ctx _
    exact ⟨ctx, [], rfl, rfl, List.nodup_nil, by simp, by simp⟩
  | succ n ih =>
    intro ctx hcard
    have hne : (freeSet ctx).Nonempty := Finset.card_pos.mp (by omega)
    obtain ⟨c', i, hg⟩ := get_digest_cookie_of_nonempty hne
    obtain ⟨hi, hfs, -, -, -, -, -, -, -⟩ := get_digest_cookie_some_spec hg
    have hcard' : n ≤ (freeSet c').card := by
      rw [hfs, Finset.card_erase_of_mem hi]
      omega
    obtain ⟨cf, l, ha, hlen, hnd, hfree, hsub⟩ := ih c' hcard'
    refine ⟨cf, i :: l, ?_, by simp [hlen], ?_, ?_, ?_⟩
    · simp [acquireN, hg, ha]
    · refine List.nodup_cons.mpr ⟨fun hmem => ?_, hnd⟩
      have := hsub i hmem
      rw [hfs] at this
      exact (Finset.not_mem_erase i _) this
    · rw [hfree, hfs]
      ext j
      simp only [Finset.mem_sdiff, Finset.mem_erase, List.toFinset_cons,
        Finset.mem_insert, List.mem_toFinset]
      tauto
    · intro j hj
      rcases List.mem_cons.mp hj with h | h
      · subst h; exact hi
      · have := hsub j h
        rw [hfs] at this
        exact Finset.mem_of_mem_erase this

/-! ## Session lifecycle -/

/-- `strncmp(q->capa.alg, "digest", strlen("digest")) == 0` holds exactly
when `"digest"` is a prefix of the queue's algorithm string. -/
def digestAlgMatches (q : WdQueue) : Bool := List.isPrefixOf "digest".data q.alg.data

/-- The cookie static initialization performed at the end of
`wcrypto_create_digest_ctx` on the `memset`-zeroed context: algorithm
fields from the setup, session id into the tag, and `usr_data` pointing
back at the cookie (represented by its index). -/
def mkCookie (setup : DigestSetup) (ctx_id : Nat) (i : Fin 64) : DigestCookie :=
  { tag := { wcrypto_tag := { ctx_id := ctx_id, tag := none }, long_data_len := 0 },
    msg := { alg_type := WD_DIGEST, alg := setup.alg, mode := setup.mode,
             data_fmt := setup.data_fmt, has_next := false, key := none,
             key_bytes := 0, inBuf := 0, in_bytes := 0, outBuf := 0,
             out_bytes := 0, result := 0, usr_data := i.val } }

/-- `wcrypto_create_digest_ctx`.  `q?`/`setup?` are the (possibly NULL)
arguments; `mallocOk` is whether `malloc` of the context succeeds, and
`keyAlloc` the outcome of `setup->ops.alloc(usr, MAX_HMAC_KEY_SIZE)`
(`none` = allocation failed / returned NULL).  The result is the updated
queue (its `q_info` may have been mutated) and the created session, `none`
on failure.  Mirrors the source exactly, including the failure paths after
`qinfo->ctx_num++` that return without decrementing the counter. -/
def wcrypto_create_digest_ctx (q? : Option WdQueue) (setup? : Option DigestSetup)
    (mallocOk : Bool) (keyAlloc : Option (List Nat)) :
    Option WdQueue × Option DigestCtx :=
  match q?, setup? with
  | none, _ => (q?, none)
  | some _, none => (q?, none)
  | some q, some setup =>
    if setup.mode = DigestMode.hmac ∧
        ¬(setup.ops.alloc ∧ setup.ops.free ∧ setup.ops.dma_map ∧ setup.ops.dma_unmap) then
      (some q, none)
    else if ¬ digestAlgMatches q then (some q, none)
    else
      let qinfo := q.info
      let qinfo1 := if ¬ qinfo.ops.alloc ∧ ¬ qinfo.ops.dma_map
                    then { qinfo with ops := setup.ops } else qinfo
      if qinfo1.ops.usr ≠ setup.ops.usr then
        (some { q with info := qinfo1 }, none)
      else
        let ctx_id : Int := qinfo1.ctx_num + 1
        let qinfo2 := { qinfo1 with ctx_num := ctx_id }
        let q2 := some { q with info := qinfo2 }
        if (WD_DIGEST_MAX_CTX : Int) < ctx_id then (q2, none)
        else if ¬ mallocOk then (q2, none)
        else if setup.mode = DigestMode.hmac ∧ keyAlloc = none then (q2, none)
        else
          (q2, some { cookies := fun i => mkCookie setup ctx_id.toNat i,
                      cstatus := fun _ => false, cidx := 0,
                      ctx_id := ctx_id.toNat,
                      key := if setup.mode = DigestMode.hmac then keyAlloc else none,
                      key_bytes := 0, io_bytes := 0, setup := setup })

/-- Result of `wcrypto_del_digest_ctx`: NULL argument, the
`"errer:repeat del digest ctx!"` path, or normal deletion. -/
inductive DelStatus where
  | nullInput
  | repeatDel
  | ok
deriving DecidableEq

/-- `wcrypto_del_digest_ctx` acting on the queue info of the session's
queue.  Mirrors the source order: decrement first, clear the allocator
configuration if the counter reached zero, only then test for negative and
report repeat-deletion (leaving the decremented counter in place).  Freeing
the key buffer and the context storage happens outside the modelled state. -/
def wcrypto_del_digest_ctx (ctx? : Option DigestCtx) (qinfo : QInfo) :
    QInfo × DelStatus :=
  match ctx? with
  | none => (qinfo, DelStatus.nullInput)
  | some _ =>
    let n : Int := qinfo.ctx_num - 1
    let qinfo1 : QInfo := { ops := if n = 0 then zeroOps else qinfo.ops, ctx_num := n }
    if n < 0 then (qinfo1, DelStatus.repeatDel) else (qinfo1, DelStatus.ok)

/-- Result record of `wcrypto_set_digest_key`.  `copied` is the number of
bytes the `memcpy(ctxt->key, key, key_len)` writes; `destNull` is `true`
when that copy's destination pointer is NULL (plain-digest session). -/
structure SetKeyRes where
  ctx : Option DigestCtx
  ret : Int
  copied : Nat
  destNull : Bool

/-- `wcrypto_set_digest_key`.  `key?` is the (possibly NULL) source pointer
modelled as the byte at each offset.  The source checks only that `ctx` and
`key` are non-NULL; it records `key_len` and copies `key_len` bytes with no
comparison against the buffer capacity `MAX_HMAC_KEY_SIZE` and no check that
the session owns a key buffer at all. -/
def wcrypto_set_digest_key (ctx? : Option DigestCtx) (key? : Option (Nat → Nat))
    (key_len : Nat) : SetKeyRes :=
  match ctx?, key? with
  | none, _ => ⟨ctx?, -WD_EINVAL, 0, false⟩
  | some _, none => ⟨ctx?, -WD_EINVAL, 0, false⟩
  | some c, some k =>
    let c' : DigestCtx :=
      { c with key_bytes := key_len
               key := c.key.map (fun _ => (List.range key_len).map k) }
    ⟨some c', WD_SUCCESS, key_len, c.key.isNone⟩

/-! ## Submission / completion protocol (`wcrypto_do_digest`) -/

/-- `cookie->tag.wcrypto_tag.tag = tag` (asynchronous user tag stored into
the claimed cookie). -/
def setCookieUserTag (c : DigestCtx) (i : Fin 64) (t : Nat) : DigestCtx :=
  let ck := c.cookies i
  let wt := { ck.tag.wcrypto_tag with tag := some t }
  let ck' := { ck with tag := { ck.tag with wcrypto_tag := wt } }
  { c with cookies := Function.update c.cookies i ck' }

/-- Write a request record back into cookie `i` (in the source the record
is built in place through `req = &cookie->msg`). -/
def writeCookieMsg (c : DigestCtx) (i : Fin 64) (m : DigestMsg) : DigestCtx :=
  let ck' := { c.cookies i with msg := m }
  { c with cookies := Function.update c.cookies i ck' }

/-- Terminal-segment bookkeeping of `wcrypto_do_digest`:
`cookie->tag.long_data_len = ctxt->io_bytes; ctxt->io_bytes = 0;`. -/
def snapshotTotal (c : DigestCtx) (i : Fin 64) : DigestCtx :=
  let ck := c.cookies i
  let ck' := { ck with tag := { ck.tag with long_data_len := c.io_bytes } }
  { c with cookies := Function.update c.cookies i ck'
           io_bytes := 0 }

/-- `digest_request_init`: populate the request from the session and the
per-call operation data, and add the input length to the session's streaming
accumulator (a `__u64`, hence the wrap at `2 ^ 64`).  Always returns
`WD_SUCCESS`, which the caller nevertheless tests. -/
def digest_request_init (req : DigestMsg) (op : OpData) (c : DigestCtx) :
    DigestMsg × DigestCtx × Int :=
  ({ req with has_next := op.has_next
              key := c.key
              key_bytes := c.key_bytes
              inBuf := op.inBuf
              in_bytes := op.in_bytes
              outBuf := op.outBuf
              out_bytes := op.out_bytes },
   { c with io_bytes := (c.io_bytes + op.in_bytes) % 2 ^ 64 },
   WD_SUCCESS)

/-- One `wd_recv` outcome on the synchronous receive path: nothing ready
(`ret == 0`), a transport-level error (`ret < 0`, the caller supplies the
negative code), or a matching reply. -/
inductive RecvRes where
  | nothing
  | fault (e : Int)
  | ok (resp : DigestMsg)

/-- The `recv_again` loop of `wcrypto_do_digest`: `recv n` is the outcome of
the `n`-th `wd_recv` call.  `fuel` bounds the remaining calls; the source
tolerates `MAX_DIGEST_RETRY_CNT` empty polls and times out on the next one,
so the loop is entered with `fuel = MAX_DIGEST_RETRY_CNT + 1`. -/
def digest_recv_loop (recv : Nat → RecvRes) : Nat → Nat → Int × Option DigestMsg
  | _, 0 => (-WD_ETIMEDOUT, none)
  | n, fuel + 1 =>
    match recv n with
    | RecvRes.nothing => digest_recv_loop recv (n + 1) fuel
    | RecvRes.fault e => (e, none)
    | RecvRes.ok resp => (WD_SUCCESS, some resp)

/-- Result of `wcrypto_do_digest`: the session and operation records as left
by the call (the source mutates them through pointers) and the return code. -/
structure DoDigestRes where
  ctx : Option DigestCtx
  opdata : Option OpData
  ret : Int
deriving DecidableEq

/-- `wcrypto_do_digest`.  `tag` is the opaque asynchronous tag (NULL for a
synchronous call); `send` gives the outcome of `wd_send` for the submitted
record and `recv` the outcome of each `wd_recv` poll of the synchronous
receive loop.  Mirrors the source: argument check, cookie acquisition
(busy when exhausted), callback requirement for tagged calls, request
population and streaming accumulation, terminal-segment snapshot, send,
then either immediate return (tagged) or the bounded receive loop; every
failure path and the synchronous success path release the cookie. -/
def wcrypto_do_digest (ctx? : Option DigestCtx) (opdata? : Option OpData)
    (tag : Option Nat) (send : DigestMsg → Int) (recv : Nat → RecvRes) :
    DoDigestRes :=
  match ctx?, opdata? with
  | none, _ => ⟨ctx?, opdata?, -WD_EINVAL⟩
  | some _, none => ⟨ctx?, opdata?, -WD_EINVAL⟩
  | some ctxt, some opdata =>
    match get_digest_cookie ctxt with
    | none => ⟨some ctxt, some opdata, -WD_EBUSY⟩
    | some (c1, i) =>
      if tag.isSome ∧ c1.setup.cb = false then
        ⟨some (releaseCookie c1 i), some opdata, -WD_EINVAL⟩
      else
        let c2 := match tag with
          | some t => setCookieUserTag c1 i t
          | none => c1
        let r := digest_request_init ((c2.cookies i).msg) opdata c2
        let c3 := writeCookieMsg r.2.1 i r.1
        if r.2.2 ≠ WD_SUCCESS then
          ⟨some (releaseCookie c3 i), some opdata, r.2.2⟩
        else
          let c4 := if opdata.has_next = false then snapshotTotal c3 i else c3
          let sret := send ((c4.cookies i).msg)
          if sret ≠ WD_SUCCESS then
            ⟨some (releaseCookie c4 i), some opdata, sret⟩
          else if tag.isSome then
            ⟨some c4, some opdata, sret⟩
          else
            match digest_recv_loop recv 0 (MAX_DIGEST_RETRY_CNT + 1) with
            | (e, none) => ⟨some (releaseCookie c4 i), some opdata, e⟩
            | (_, some resp) =>
              ⟨some (releaseCookie c4 i),
               some { opdata with outBuf := resp.outBuf
                                  out_bytes := resp.out_bytes
                                  status := resp.result },
               WD_SUCCESS⟩

/-! ## Completion poller (`wcrypto_digest_poll`) -/

/-- One `wd_recv` outcome inside `wcrypto_digest_poll`.  A well-formed
reply carries the index of its cookie (the source recovers cookie and
session by following `resp->usr_data`); `hw` marks the
`-WD_HW_ERR`-with-reply case.  `hwNull` is `-WD_HW_ERR` with a NULL reply
(`"recv err from req_cache!"`), `fatal e` any other negative return.
The pending list is the transport queue: `[]` means nothing ready. -/
inductive PollItem where
  | reply (i : Fin 64) (resp : DigestMsg) (hw : Bool)
  | hwNull
  | fatal (e : Int)
deriving DecidableEq

/-- Does this pending item deliver a processable reply? -/
def PollItem.isReply : PollItem → Bool
  | PollItem.reply _ _ _ => true
  | _ => false

/-- The cookie index a pending item would release. -/
def pollIdx : PollItem → Option (Fin 64)
  | PollItem.reply i _ _ => some i
  | _ => none

/-- Result of `wcrypto_digest_poll`: session state after slot reclamation,
remaining transport queue, the callback invocations in order (reply record
as delivered, stored user tag), and the return value (count of completions,
or a negative error). -/
structure PollRes where
  ctx : DigestCtx
  pending : List PollItem
  cbs : List (DigestMsg × Option Nat)
  ret : Int
deriving DecidableEq

/-- An all-zero reply record (only used as the junk value of `cbOf` on
non-reply items, which the lemmas never reach). -/
def msg0 : DigestMsg :=
  { alg_type := 0, alg := 0, mode := DigestMode.normal, data_fmt := 0,
    has_next := false, key := none, key_bytes := 0, inBuf := 0, in_bytes := 0,
    outBuf := 0, out_bytes := 0, result := 0, usr_data := 0 }

/-- The callback invocation a reply produces: the reply record (result
overwritten with `WD_HW_ERR` on a hardware fault) and the user tag stored
in the owning cookie. -/
def cbOf (c : DigestCtx) : PollItem → DigestMsg × Option Nat
  | PollItem.reply i resp hw =>
    (if hw then { resp with result := WD_HW_ERR } else resp,
     (c.cookies i).tag.wcrypto_tag.tag)
  | _ => (msg0, none)

/-- The `do { ... } while (--num)` body of `wcrypto_digest_poll`.  `fuel` is
the number of iterations the counter still allows (the source decrements a
32-bit unsigned after the body). -/
def digest_poll_loop (c : DigestCtx) (pending : List PollItem) (fuel : Nat)
    (count : Nat) (cbs : List (DigestMsg × Option Nat)) : PollRes :=
  match fuel with
  | 0 => ⟨c, pending, cbs, (count : Int)⟩
  | fuel + 1 =>
    match pending with
    | [] => ⟨c, pending, cbs, (count : Int)⟩
    | item :: rest =>
      match item with
      | PollItem.fatal e => ⟨c, rest, cbs, e⟩
      | PollItem.hwNull => ⟨c, rest, cbs, -WD_HW_ERR⟩
      | PollItem.reply i resp hw =>
        digest_poll_loop (releaseCookie c i) rest fuel (count + 1)
          (cbs ++ [cbOf c (PollItem.reply i resp hw)])

/-- `wcrypto_digest_poll`.  `num` is the 32-bit unsigned `num` argument:
because the source tests `--num` after the body, `num = 0` wraps around and
allows `2 ^ 32` iterations.  All replies are modelled as belonging to the
single session `c` (the source recovers the owning session per reply from
`resp->usr_data`). -/
def wcrypto_digest_poll (c : DigestCtx) (pending : List PollItem) (num : Nat) :
    PollRes :=
  let n := num % 2 ^ 32
  digest_poll_loop c pending (if n = 0 then 2 ^ 32 else n) 0 []

/-- Fold of `releaseCookie` over the cookie indices of processed items. -/
def releaseMany (c : DigestCtx) (l : List PollItem) : DigestCtx :=
  l.foldl (fun acc it => match pollIdx it with
    | some i => releaseCookie acc i
    | none => acc) c

theorem cbOf_releaseCookie (c : DigestCtx) (i : Fin 64) :
    cbOf (releaseCookie c i) = cbOf c := by
  funext it
  cases it <;> simp [cbOf, releaseCookie_eq]

theorem releaseMany_cookies : ∀ (l : List PollItem) (c : DigestCtx),
    (releaseMany c l).cookies = c.cookies := by
  intro l
  induction l with
  | nil => intro c; rfl
  | cons it rest ih =>
    intro c
    cases it with
    | reply i resp hw =>
      show (releaseMany (releaseCookie c i) rest).cookies = _
      rw [ih, releaseCookie_eq]
    | hwNull => exact ih c
    | fatal e => exact ih c

theorem releaseMany_cstatus : ∀ (l : List PollItem) (c : DigestCtx) (j : Fin 64),
    (releaseMany c l).cstatus j =
      if some j ∈ l.map pollIdx then false else c.cstatus j := by
  intro l
  induction l with
  | nil => intro c j; simp [releaseMany]
  | cons it rest ih =>
    intro c j
    cases it with
    | reply i resp hw =>
      show (releaseMany (releaseCookie c i) rest).cstatus j = _
      rw [ih]
      by_cases hr : some j ∈ rest.map pollIdx
      · simp [hr, pollIdx]
      · by_cases hij : j = i
        · subst hij
          simp [hr, pollIdx, releaseCookie_eq, Function.update_same]
        · simp [hr, pollIdx, releaseCookie_eq, Function.update_noteq hij,
            Option.some.injEq, hij]
    | hwNull =>
      show (releaseMany c rest).cstatus j = _
      rw [ih]
      simp [pollIdx]
    | fatal e =>
      show (releaseMany c rest).cstatus j = _
      rw [ih]
      simp [pollIdx]

theorem releaseMany_cons_reply (c : DigestCtx) (i : Fin 64) (resp : DigestMsg)
    (hw : Bool) (l : List PollItem) :
    releaseMany c (PollItem.reply i resp hw :: l) = releaseMany (releaseCookie c i) l := rfl

/-- Closed form of the polling loop on a transport queue holding only
well-formed replies: with `fuel` iterations allowed it processes
`min fuel pending.length` replies, appends their callback invocations in
order, releases their cookies and returns the count processed. -/
theorem digest_poll_loop_spec :
    ∀ (pending : List PollItem) (c : DigestCtx) (fuel count : Nat)
      (cbs : List (DigestMsg × Option Nat)),
      (∀ it ∈ pending, it.isReply = true) →
      digest_poll_loop c pending fuel count cbs =
        ⟨releaseMany c (pending.take (min fuel pending.length)),
         pending.drop (min fuel pending.length),
         cbs ++ (pending.take (min fuel pending.length)).map (cbOf c),
         ((count + min fuel pending.length : Nat) : Int)⟩ := by
  intro pending
  induction pending with
  | nil =>
    intro c fuel count cbs _
    cases fuel <;> simp [digest_poll_loop, releaseMany]
  | cons it rest ih =>
    intro c fuel count cbs hall
    cases it with
    | hwNull => simpa [PollItem.isReply] using hall PollItem.hwNull (by simp)
    | fatal e => simpa [PollItem.isReply] using hall (PollItem.fatal e) (by simp)
    | reply i resp hw =>
      cases fuel with
      | zero => simp [digest_poll_loop, releaseMany]
      | succ fuel =>
        have hall' : ∀ x ∈ rest, x.isReply = true := fun x hx => hall x (by simp [hx])
        have step : digest_poll_loop c (PollItem.reply i resp hw :: rest) (fuel + 1) count cbs =
            digest_poll_loop (releaseCookie c i) rest fuel (count + 1)
              (cbs ++ [cbOf c (PollItem.reply i resp hw)]) := rfl
        rw [step, ih _ fuel (count + 1) _ hall']
        have hmin : min (fuel + 1) (rest.length + 1) = min fuel rest.length + 1 :=
          Nat.succ_min_succ fuel rest.length
        simp only [List.length_cons, hmin, List.take_succ_cons, List.drop_succ_cons,
          List.map_cons, releaseMany_cons_reply]
        rw [cbOf_releaseCookie]
        have hcnt : count + 1 + min fuel rest.length = count + (min fuel rest.length + 1) := by
          omega
        rw [hcnt]
        simp [List.append_assoc]

/-! ## Lemmas about `wcrypto_do_digest` -/

/-- The session state after `digest_request_init` wrote the request into
cookie `i` and the terminal-segment snapshot ran (when `has_next` is
false): exactly the in-place mutations of `wcrypto_do_digest` between the
tag store and `wd_send`. -/
def doSubmitState (c2 : DigestCtx) (i : Fin 64) (od : OpData) : DigestCtx :=
  let r := digest_request_init ((c2.cookies i).msg) od c2
  let c3 := writeCookieMsg r.2.1 i r.1
  if od.has_next = false then snapshotTotal c3 i else c3

theorem doSubmitState_cstatus (c2 : DigestCtx) (i : Fin 64) (od : OpData) :
    (doSubmitState c2 i od).cstatus = c2.cstatus := by
  by_cases hn : od.has_next = false <;>
    simp [doSubmitState, hn, digest_request_init, writeCookieMsg, snapshotTotal]

theorem doSubmitState_cidx (c2 : DigestCtx) (i : Fin 64) (od : OpData) :
    (doSubmitState c2 i od).cidx = c2.cidx := by
  by_cases hn : od.has_next = false <;>
    simp [doSubmitState, hn, digest_request_init, writeCookieMsg, snapshotTotal]

theorem doSubmitState_setup (c2 : DigestCtx) (i : Fin 64) (od : OpData) :
    (doSubmitState c2 i od).setup = c2.setup := by
  by_cases hn : od.has_next = false <;>
    simp [doSubmitState, hn, digest_request_init, writeCookieMsg, snapshotTotal]

theorem doSubmitState_io_bytes (c2 : DigestCtx) (i : Fin 64) (od : OpData) :
    (doSubmitState c2 i od).io_bytes =
      if od.has_next = false then 0 else (c2.io_bytes + od.in_bytes) % 2 ^ 64 := by
  by_cases hn : od.has_next = false <;>
    simp [doSubmitState, hn, digest_request_init, writeCookieMsg, snapshotTotal]

theorem doSubmitState_long_data_len (c2 : DigestCtx) (i : Fin 64) (od : OpData)
    (hn : od.has_next = false) :
    ((doSubmitState c2 i od).cookies i).tag.long_data_len =
      (c2.io_bytes + od.in_bytes) % 2 ^ 64 := by
  simp [doSubmitState, hn, digest_request_init, writeCookieMsg, snapshotTotal,
    Function.update_same]

theorem setCookieUserTag_cstatus (c : DigestCtx) (i : Fin 64) (t : Nat) :
    (setCookieUserTag c i t).cstatus = c.cstatus := by
  simp [setCookieUserTag]

theorem setCookieUserTag_cidx (c : DigestCtx) (i : Fin 64) (t : Nat) :
    (setCookieUserTag c i t).cidx = c.cidx := by
  simp [setCookieUserTag]

theorem setCookieUserTag_setup (c : DigestCtx) (i : Fin 64) (t : Nat) :
    (setCookieUserTag c i t).setup = c.setup := by
  simp [setCookieUserTag]

theorem setCookieUserTag_io_bytes (c : DigestCtx) (i : Fin 64) (t : Nat) :
    (setCookieUserTag c i t).io_bytes = c.io_bytes := by
  simp [setCookieUserTag]

/-- A tagged (asynchronous) call on a session with a registered callback,
a free slot and a transport that accepts the request: the call returns
success immediately, leaving the claimed slot leased and the submit-time
mutations in place. -/
theorem do_digest_tagged_eq {c c1 : DigestCtx} {i : Fin 64} (od : OpData) (t : Nat)
    (send : DigestMsg → Int) (recv : Nat → RecvRes)
    (hg : get_digest_cookie c = some (c1, i)) (hcb : c1.setup.cb = true)
    (hsend : ∀ m, send m = WD_SUCCESS) :
    wcrypto_do_digest (some c) (some od) (some t) send recv =
      ⟨some (doSubmitState (setCookieUserTag c1 i t) i od), some od, WD_SUCCESS⟩ := by
  simp [wcrypto_do_digest, hg, hcb, hsend, doSubmitState, digest_request_init]

theorem digest_recv_loop_const_nothing :
    ∀ (fuel n : Nat),
      digest_recv_loop (fun _ => RecvRes.nothing) n fuel = (-WD_ETIMEDOUT, none) := by
  intro fuel
  induction fuel with
  | zero => intro n; rfl
  | succ k ih => intro n; simpa [digest_recv_loop] using ih (n + 1)

/-- A synchronous (untagged) call with a free slot, an accepting transport
and a receive that never produces a reply: the receive loop exhausts the
retry ceiling, the call fails with `-WD_ETIMEDOUT` and the cookie is
released on the way out. -/
theorem do_digest_sync_timeout_eq {c c1 : DigestCtx} {i : Fin 64} (od : OpData)
    (send : DigestMsg → Int)
    (hg : get_digest_cookie c = some (c1, i)) (hsend : ∀ m, send m = WD_SUCCESS) :
    wcrypto_do_digest (some c) (some od) none send (fun _ => RecvRes.nothing) =
      ⟨some (releaseCookie (doSubmitState c1 i od) i), some od, -WD_ETIMEDOUT⟩ := by
  simp [wcrypto_do_digest, hg, hsend, doSubmitState, digest_request_init,
    digest_recv_loop_const_nothing]

/-! ## Concrete fixtures used by the claim theorems and witnesses -/

/-- A fully populated allocator configuration with owning identity 7. -/
def opsA : MmOps := ⟨true, true, true, true, 7⟩

/-- A keyed (HMAC) setup with all four allocator callbacks and a callback. -/
def setupH : DigestSetup :=
  { alg := 1, mode := DigestMode.hmac, data_fmt := 0, cb := true, ops := opsA }

/-- A plain-digest setup (no allocator callbacks supplied). -/
def setupN : DigestSetup :=
  { alg := 1, mode := DigestMode.normal, data_fmt := 0, cb := true, ops := zeroOps }

/-- A digest queue already at the session cap (`ctx_num = 256`), with
`opsA` registered. -/
def qFull : WdQueue := { alg := "digest", info := { ops := opsA, ctx_num := 256 } }

/-- A digest queue with no sessions and no registered configuration. -/
def qFresh : WdQueue := { alg := "digest", info := { ops := zeroOps, ctx_num := 0 } }

/-- A 128-byte key buffer as returned by a successful allocation. -/
def keyBuf0 : List Nat := List.replicate 128 0

/-- A freshly created keyed session on a queue (all slots free, accumulator
zero, callback registered), as `wcrypto_create_digest_ctx` would build it. -/
def ctx0 : DigestCtx :=
  { cookies := fun i => mkCookie setupH 1 i, cstatus := fun _ => false, cidx := 0,
    ctx_id := 1, key := some keyBuf0, key_bytes := 0, io_bytes := 0, setup := setupH }

/-! ## Claim C1 -/

/-- C1: the claim states that when `wcrypto_create_digest_ctx` fails after
incrementing the queue's active-session count (session id over the 256 cap,
context-memory allocation failure, or key-buffer allocation failure in keyed
mode), the count and the registered allocator configuration are restored.
The code does not do this: this theorem evaluates all three failure paths
and shows the count stays incremented (and, on a first-session key-buffer
failure, the freshly registered allocator configuration stays registered).
Evidence for the `code_bug` verdict. -/
theorem C1_create_failure_leaves_count_incremented :
    ((wcrypto_create_digest_ctx (some qFull) (some setupH) true (some keyBuf0)).2 = none ∧
     (wcrypto_create_digest_ctx (some qFull) (some setupH) true (some keyBuf0)).1.map
        (fun q => q.info.ctx_num) = some 257) ∧
    ((wcrypto_create_digest_ctx (some qFresh) (some setupH) false (some keyBuf0)).2 = none ∧
     (wcrypto_create_digest_ctx (some qFresh) (some setupH) false (some keyBuf0)).1.map
        (fun q => q.info.ctx_num) = some 1) ∧
    ((wcrypto_create_digest_ctx (some qFresh) (some setupH) true none).2 = none ∧
     (wcrypto_create_digest_ctx (some qFresh) (some setupH) true none).1.map
        (fun q => q.info.ctx_num) = some 1 ∧
     (wcrypto_create_digest_ctx (some qFresh) (some setupH) true none).1.map
        (fun q => q.info.ops) = some opsA) := by
  decide

/-! ## Claim C2 -/

/-- C2: the claim states that destroying on a queue whose active-session
count is already zero reports the double-destroy error and leaves the count
unchanged, the count never becoming negative.  `wcrypto_del_digest_ctx`
does report the `"errer:repeat del digest ctx!"` error, but only after
decrementing: the count is left at `-1`.  This theorem evaluates that path.
Evidence for the `code_bug` verdict. -/
theorem C2_del_on_empty_queue_goes_negative :
    (wcrypto_del_digest_ctx (some ctx0) { ops := opsA, ctx_num := 0 }).2 =
      DelStatus.repeatDel ∧
    (wcrypto_del_digest_ctx (some ctx0) { ops := opsA, ctx_num := 0 }).1.ctx_num = -1 := by
  decide

/-! ## Claim C3 -/

/-- C3 counterexample: the claim states that releasing an already-free slot
is rejected as an invalid-use error surfaced to the caller.  On the
concrete session `ctx0`, slot 0 is free, yet `put_digest_cookie` accepts
the release silently: no error is raised (the `Bool` component, which
models the only error indication the source has — the `WD_ERR` log — is
`false`) and the flag is simply cleared again. -/
theorem C3_counterexample_free_release_is_silent :
    ctx0.cstatus 0 = false ∧ (put_digest_cookie ctx0 0).2 = false ∧
    ∀ j : Fin 64, (put_digest_cookie ctx0 0).1.cstatus j = ctx0.cstatus j := by
  decide

/-- C3 amended: releasing a slot whose position is out of the pool's range
is detected (the source logs `"digest cookie not exist!"` and leaves the
pool unchanged — though, the function being `void`, no error value reaches
the caller), while releasing an in-range slot is never rejected: whether
leased or already free, the occupancy flag is cleared with no error. -/
theorem C3_put_cookie_range_check (ctx : DigestCtx) (idx : Int) :
    ((idx < 0 ∨ (64 : Int) ≤ idx) → put_digest_cookie ctx idx = (ctx, true)) ∧
    (0 ≤ idx → idx < 64 →
      (put_digest_cookie ctx idx).2 = false ∧
      ∀ j : Fin 64, (put_digest_cookie ctx idx).1.cstatus j =
        if (j.val : Int) = idx then false else ctx.cstatus j) := by
  constructor
  · intro h
    rw [put_digest_cookie, dif_pos (by simpa [WD_DIGEST_CTX_MSG_NUM] using h)]
  · intro h0 h64
    rw [put_digest_cookie, dif_neg (by simp [WD_DIGEST_CTX_MSG_NUM]; omega)]
    refine ⟨rfl, fun j => ?_⟩
    by_cases hj : (j.val : Int) = idx
    · have : j = (⟨idx.toNat, by omega⟩ : Fin 64) := by
        apply Fin.ext
        simp
        omega
      rw [if_pos hj, this]
      simp [Function.update_same]
    · have : j ≠ (⟨idx.toNat, by omega⟩ : Fin 64) := by
        intro hc
        apply hj
        rw [hc]
        simp
        omega
      rw [if_neg hj]
      simp [Function.update_noteq this]

/-- C3 witness: the amended theorem applied at a concrete session, an
out-of-range position (99) and an in-range free position (0). -/
theorem C3_put_cookie_range_check_witness :
    put_digest_cookie ctx0 99 = (ctx0, true) ∧
    (put_digest_cookie ctx0 0).2 = false := by
  constructor
  · exact (C3_put_cookie_range_check ctx0 99).1 (Or.inr (by decide))
  · exact ((C3_put_cookie_range_check ctx0 0).2 (by decide) (by decide)).1

/-! ## Claim C4 -/

/-- C4: on a session whose 64 pool slots are all free, every sequence of
`N ≤ 64` acquisitions with no intervening release succeeds and returns
pairwise distinct slots; once all 64 slots are occupied the next acquire
returns no slot, which `wcrypto_do_digest` surfaces as `-WD_EBUSY` leaving
the session and operation untouched. -/
theorem C4_acquire_fills_pool_then_busy (c : DigestCtx) (N : Nat)
    (hfree : ∀ j : Fin 64, c.cstatus j = false) (hN : N ≤ 64) :
    ∃ cf l, acquireN c N = some (cf, l) ∧ l.length = N ∧ l.Nodup ∧
      (N = 64 →
        get_digest_cookie cf = none ∧
        ∀ (od : OpData) (tag : Option Nat) (send : DigestMsg → Int)
          (recv : Nat → RecvRes),
          wcrypto_do_digest (some cf) (some od) tag send recv =
            ⟨some cf, some od, -WD_EBUSY⟩) := by
  have huniv : freeSet c = Finset.univ := by
    ext j
    simp [freeSet, mem_freeOf, hfree]
  have hcard : (freeSet c).card = 64 := by
    rw [huniv, Finset.card_univ, Fintype.card_fin]
  obtain ⟨cf, l, ha, hlen, hnd, hfs, hsub⟩ := acquireN_spec N c (by omega)
  refine ⟨cf, l, ha, hlen, hnd, fun h64 => ?_⟩
  have hlfin : l.toFinset = Finset.univ := by
    apply Finset.eq_univ_of_card
    rw [List.toFinset_card_of_nodup hnd, hlen, h64, Fintype.card_fin]
  have hempty : freeSet cf = ∅ := by
    rw [hfs, huniv, hlfin]
    simp
  have hnone : get_digest_cookie cf = none := by
    rw [get_digest_cookie_none_iff]
    intro j
    by_contra hj
    rw [Bool.not_eq_true] at hj
    have : j ∈ freeSet cf := by
      rw [freeSet, mem_freeOf]
      exact hj
    rw [hempty] at this
    simp at this
  exact ⟨hnone, fun od tag send recv => by simp [wcrypto_do_digest, hnone]⟩

/-- C4 witness: the theorem applied to a concrete all-free session with
`N = 64`. -/
theorem C4_acquire_fills_pool_then_busy_witness :
    (∀ j : Fin 64, ctx0.cstatus j = false) ∧
    ∃ cf l, acquireN ctx0 64 = some (cf, l) ∧ l.length = 64 ∧ l.Nodup ∧
      (64 = 64 →
        get_digest_cookie cf = none ∧
        ∀ (od : OpData) (tag : Option Nat) (send : DigestMsg → Int)
          (recv : Nat → RecvRes),
          wcrypto_do_digest (some cf) (some od) tag send recv =
            ⟨some cf, some od, -WD_EBUSY⟩) :=
  ⟨by decide, C4_acquire_fills_pool_then_busy ctx0 64 (by decide) (by decide)⟩

/-! ## Claim C9 -/

/-- C9: for every non-NULL session and key, `wcrypto_set_digest_key`
returns success, records `key_len` as the key size and copies exactly
`key_len` bytes into the session's key buffer; no comparison against the
fixed `MAX_HMAC_KEY_SIZE = 128` capacity is made, so every `key_len`
greater than 128 makes the copy write more than the buffer's capacity. -/
theorem C9_set_key_no_bound_check (c : DigestCtx) (k : Nat → Nat) (key_len : Nat) :
    (wcrypto_set_digest_key (some c) (some k) key_len).ret = WD_SUCCESS ∧
    (wcrypto_set_digest_key (some c) (some k) key_len).ctx.map
        (fun c' => c'.key_bytes) = some key_len ∧
    (wcrypto_set_digest_key (some c) (some k) key_len).copied = key_len ∧
    (c.key.isSome = true →
      ((wcrypto_set_digest_key (some c) (some k) key_len).ctx.bind fun c' => c'.key) =
        some ((List.range key_len).map k)) ∧
    (MAX_HMAC_KEY_SIZE < key_len →
      MAX_HMAC_KEY_SIZE < (wcrypto_set_digest_key (some c) (some k) key_len).copied) := by
  refine ⟨rfl, rfl, rfl, fun hk => ?_, fun h => ?_⟩
  · cases hck : c.key with
    | none => rw [hck] at hk; simp at hk
    | some b => simp [wcrypto_set_digest_key, hck]
  · simpa [wcrypto_set_digest_key] using h

/-- C9 witness: the theorem applied at a concrete keyed session with
`key_len = 200 > 128`. -/
theorem C9_set_key_no_bound_check_witness :
    (wcrypto_set_digest_key (some ctx0) (some (fun n => n)) 200).ret = WD_SUCCESS ∧
    (wcrypto_set_digest_key (some ctx0) (some (fun n => n)) 200).ctx.map
        (fun c' => c'.key_bytes) = some 200 ∧
    (wcrypto_set_digest_key (some ctx0) (some (fun n => n)) 200).copied = 200 ∧
    MAX_HMAC_KEY_SIZE <
      (wcrypto_set_digest_key (some ctx0) (some (fun n => n)) 200).copied := by
  obtain ⟨h1, h2, h3, -, h5⟩ := C9_set_key_no_bound_check ctx0 (fun n => n) 200
  exact ⟨h1, h2, h3, h5 (by decide)⟩

/-! ## Claim C10 -/

/-- C10: a session created in plain-digest (non-keyed) mode has a NULL key
pointer, yet `wcrypto_set_digest_key` performs no mode check: with a
non-NULL session and key it returns success (not `-WD_EINVAL`) and its
`memcpy` destination is the NULL key pointer. -/
theorem C10_set_key_through_null_key (q : WdQueue) (setup : DigestSetup)
    (c : DigestCtx) (k : Nat → Nat) (key_len : Nat) (mallocOk : Bool)
    (keyAlloc : Option (List Nat))
    (hmode : setup.mode = DigestMode.normal)
    (hc : (wcrypto_create_digest_ctx (some q) (some setup) mallocOk keyAlloc).2 = some c) :
    c.key = none ∧
    (wcrypto_set_digest_key (some c) (some k) key_len).ret = WD_SUCCESS ∧
    (wcrypto_set_digest_key (some c) (some k) key_len).ret ≠ -WD_EINVAL ∧
    (wcrypto_set_digest_key (some c) (some k) key_len).destNull = true := by
  have hkey : c.key = none := by
    simp only [wcrypto_create_digest_ctx, hmode] at hc
    split_ifs at hc <;> first
      | (cases hc; rfl)
      | simp_all
  refine ⟨hkey, rfl, ?_, ?_⟩
  · rw [show (wcrypto_set_digest_key (some c) (some k) key_len).ret = WD_SUCCESS from rfl]
    decide
  · show c.key.isNone = true
    rw [hkey]
    rfl

/-- C10 witness: a concrete plain-mode creation and a concrete
`wcrypto_set_digest_key` call on the resulting session. -/
theorem C10_set_key_through_null_key_witness :
    ((wcrypto_create_digest_ctx (some qFresh) (some setupN) true none).2 =
      some { cookies := fun i => mkCookie setupN 1 i, cstatus := fun _ => false,
             cidx := 0, ctx_id := 1, key := none, key_bytes := 0, io_bytes := 0,
             setup := setupN }) ∧
    ({ cookies := fun i => mkCookie setupN 1 i, cstatus := fun _ => false,
       cidx := 0, ctx_id := 1, key := none, key_bytes := 0, io_bytes := 0,
       setup := setupN } : DigestCtx).key = none ∧
    (wcrypto_set_digest_key
        (some { cookies := fun i => mkCookie setupN 1 i, cstatus := fun _ => false,
                cidx := 0, ctx_id := 1, key := none, key_bytes := 0, io_bytes := 0,
                setup := setupN }) (some (fun n => n)) 5).ret = WD_SUCCESS ∧
    (wcrypto_set_digest_key
        (some { cookies := fun i => mkCookie setupN 1 i, cstatus := fun _ => false,
                cidx := 0, ctx_id := 1, key := none, key_bytes := 0, io_bytes := 0,
                setup := setupN }) (some (fun n => n)) 5).destNull = true := by
  have h := C10_set_key_through_null_key qFresh setupN

    { cookies := fun i => mkCookie setupN 1 i, cstatus := fun _ => false,
      cidx := 0, ctx_id := 1, key := none, key_bytes := 0, io_bytes := 0,
      setup := setupN }
    (fun n => n) 5 true none rfl rfl
  exact ⟨rfl, h.1, h.2.1, h.2.2.2⟩

/-! ## Claim C5 -/

/-- C5: three serialized submissions on one session with has-more flags
true, true, false, starting with streaming accumulator zero (and all slots
free, a registered callback and an accepting transport, so every
submission goes through): all three succeed, the terminal segment's slot —
the slot at the session's rotating hint `cidx`, which the third acquire set
to the claimed slot — records a total length equal to the sum of the three
segments' input lengths, and the session's accumulator is zero immediately
after the terminal submission.  Input lengths are `__u32` values. -/
theorem C5_streaming_total_and_reset (c : DigestCtx) (o1 o2 o3 : OpData)
    (t1 t2 t3 : Nat) (recv : Nat → RecvRes)
    (hfree : ∀ j : Fin 64, c.cstatus j = false) (hio : c.io_bytes = 0)
    (hcb : c.setup.cb = true)
    (h1 : o1.has_next = true) (h2 : o2.has_next = true) (h3 : o3.has_next = false)
    (b1 : o1.in_bytes < 2 ^ 32) (b2 : o2.in_bytes < 2 ^ 32) (b3 : o3.in_bytes < 2 ^ 32) :
    ∃ c1 c2 c3,
      wcrypto_do_digest (some c) (some o1) (some t1) (fun _ => WD_SUCCESS) recv =
        ⟨some c1, some o1, WD_SUCCESS⟩ ∧
      wcrypto_do_digest (some c1) (some o2) (some t2) (fun _ => WD_SUCCESS) recv =
        ⟨some c2, some o2, WD_SUCCESS⟩ ∧
      wcrypto_do_digest (some c2) (some o3) (some t3) (fun _ => WD_SUCCESS) recv =
        ⟨some c3, some o3, WD_SUCCESS⟩ ∧
      (c3.cookies c3.cidx).tag.long_data_len =
        o1.in_bytes + o2.in_bytes + o3.in_bytes ∧
      c3.io_bytes = 0 := by
  have huniv : freeSet c = Finset.univ := by
    ext j
    simp [freeSet, mem_freeOf, hfree]
  have hcard : (freeSet c).card = 64 := by
    rw [huniv, Finset.card_univ, Fintype.card_fin]
  -- first segment
  have hne1 : (freeSet c).Nonempty := Finset.card_pos.mp (by omega)
  obtain ⟨g1, i1, hg1⟩ := get_digest_cookie_of_nonempty hne1
  obtain ⟨hi1, hfs1, -, -, -, -, -, hio1, hsetup1⟩ := get_digest_cookie_some_spec hg1
  have e1 := do_digest_tagged_eq o1 t1 (fun _ => WD_SUCCESS) recv hg1
    (by rw [hsetup1, hcb]) (fun m => rfl)
  have hcst1 : (doSubmitState (setCookieUserTag g1 i1 t1) i1 o1).cstatus = g1.cstatus := by
    rw [doSubmitState_cstatus, setCookieUserTag_cstatus]
  have hfsc1 : freeSet (doSubmitState (setCookieUserTag g1 i1 t1) i1 o1) =
      (freeSet c).erase i1 := by
    show freeOf (doSubmitState (setCookieUserTag g1 i1 t1) i1 o1).cstatus = _
    rw [hcst1]
    exact hfs1
  have hioc1 : (doSubmitState (setCookieUserTag g1 i1 t1) i1 o1).io_bytes =
      o1.in_bytes := by
    rw [doSubmitState_io_bytes, setCookieUserTag_io_bytes, hio1, hio, h1]
    simp
    omega
  have hsetc1 : (doSubmitState (setCookieUserTag g1 i1 t1) i1 o1).setup = c.setup := by
    rw [doSubmitState_setup, setCookieUserTag_setup, hsetup1]
  -- second segment
  have hcard1 : (freeSet (doSubmitState (setCookieUserTag g1 i1 t1) i1 o1)).card = 63 := by
    rw [hfsc1, Finset.card_erase_of_mem hi1, hcard]
  have hne2 : (freeSet (doSubmitState (setCookieUserTag g1 i1 t1) i1 o1)).Nonempty :=
    Finset.card_pos.mp (by omega)
  obtain ⟨g2, i2, hg2⟩ := get_digest_cookie_of_nonempty hne2
  obtain ⟨hi2, hfs2, -, -, -, -, -, hio2, hsetup2⟩ := get_digest_cookie_some_spec hg2
  have e2 := do_digest_tagged_eq o2 t2 (fun _ => WD_SUCCESS) recv hg2
    (by rw [hsetup2, hsetc1, hcb]) (fun m => rfl)
  have hcst2 : (doSubmitState (setCookieUserTag g2 i2 t2) i2 o2).cstatus = g2.cstatus := by
    rw [doSubmitState_cstatus, setCookieUserTag_cstatus]
  have hfsc2 : freeSet (doSubmitState (setCookieUserTag g2 i2 t2) i2 o2) =
      (freeSet (doSubmitState (setCookieUserTag g1 i1 t1) i1 o1)).erase i2 := by
    show freeOf (doSubmitState (setCookieUserTag g2 i2 t2) i2 o2).cstatus = _
    rw [hcst2]
    exact hfs2
  have hioc2 : (doSubmitState (setCookieUserTag g2 i2 t2) i2 o2).io_bytes =
      o1.in_bytes + o2.in_bytes := by
    rw [doSubmitState_io_bytes, setCookieUserTag_io_bytes, hio2, hioc1, h2]
    simp
    omega
  have hsetc2 : (doSubmitState (setCookieUserTag g2 i2 t2) i2 o2).setup = c.setup := by
    rw [doSubmitState_setup, setCookieUserTag_setup, hsetup2, hsetc1]
  -- third (terminal) segment
  have hcard2 : (freeSet (doSubmitState (setCookieUserTag g2 i2 t2) i2 o2)).card = 62 := by
    rw [hfsc2, Finset.card_erase_of_mem hi2, hcard1]
  have hne3 : (freeSet (doSubmitState (setCookieUserTag g2 i2 t2) i2 o2)).Nonempty :=
    Finset.card_pos.mp (by omega)
  obtain ⟨g3, i3, hg3⟩ := get_digest_cookie_of_nonempty hne3
  obtain ⟨hi3, hfs3, -, hcidx3, -, -, -, hio3, hsetup3⟩ := get_digest_cookie_some_spec hg3
  have e3 := do_digest_tagged_eq o3 t3 (fun _ => WD_SUCCESS) recv hg3
    (by rw [hsetup3, hsetc2, hcb]) (fun m => rfl)
  refine ⟨_, _, _, e1, e2, e3, ?_, ?_⟩
  · have hcidx : (doSubmitState (setCookieUserTag g3 i3 t3) i3 o3).cidx = i3 := by
      rw [doSubmitState_cidx, setCookieUserTag_cidx, hcidx3]
    rw [hcidx, doSubmitState_long_data_len _ _ _ h3, setCookieUserTag_io_bytes,
      hio3, hioc2]
    omega
  · rw [doSubmitState_io_bytes, h3]
    simp

/-- C5 witness: the theorem applied to the concrete fresh session `ctx0`
and three concrete segments of lengths 5, 7, 11. -/
theorem C5_streaming_total_and_reset_witness :
    ∃ c1 c2 c3,
      wcrypto_do_digest (some ctx0) (some ⟨0, 5, 0, 32, true, 0⟩) (some 1)
          (fun _ => WD_SUCCESS) (fun _ => RecvRes.nothing) =
        ⟨some c1, some ⟨0, 5, 0, 32, true, 0⟩, WD_SUCCESS⟩ ∧
      wcrypto_do_digest (some c1) (some ⟨0, 7, 0, 32, true, 0⟩) (some 2)
          (fun _ => WD_SUCCESS) (fun _ => RecvRes.nothing) =
        ⟨some c2, some ⟨0, 7, 0, 32, true, 0⟩, WD_SUCCESS⟩ ∧
      wcrypto_do_digest (some c2) (some ⟨0, 11, 0, 32, false, 0⟩) (some 3)
          (fun _ => WD_SUCCESS) (fun _ => RecvRes.nothing) =
        ⟨some c3, some ⟨0, 11, 0, 32, false, 0⟩, WD_SUCCESS⟩ ∧
      (c3.cookies c3.cidx).tag.long_data_len = 5 + 7 + 11 ∧
      c3.io_bytes = 0 :=
  C5_streaming_total_and_reset ctx0 ⟨0, 5, 0, 32, true, 0⟩ ⟨0, 7, 0, 32, true, 0⟩
    ⟨0, 11, 0, 32, false, 0⟩ 1 2 3 (fun _ => RecvRes.nothing)
    (by decide) rfl rfl rfl rfl rfl (by decide) (by decide) (by decide)

/-! ## Claim C6 -/

/-- C6: a synchronous (untagged) `wcrypto_do_digest` call on a session with
a free slot, against a transport that accepts the request but whose receive
always reports nothing ready, exhausts the retry ceiling
(`MAX_DIGEST_RETRY_CNT = 20000000` tolerated empty polls; the next one
times out) and fails with `-WD_ETIMEDOUT`; the slot is released before
returning — the occupancy bitmap is exactly as before the call — so an
acquire on the same session immediately afterwards succeeds. -/
theorem C6_sync_timeout_releases_slot (c : DigestCtx) (od : OpData)
    (hfree : (freeSet c).Nonempty) :
    digest_recv_loop (fun _ => RecvRes.nothing) 0 (MAX_DIGEST_RETRY_CNT + 1) =
      (-WD_ETIMEDOUT, none) ∧
    ∃ cf, wcrypto_do_digest (some c) (some od) none (fun _ => WD_SUCCESS)
        (fun _ => RecvRes.nothing) = ⟨some cf, some od, -WD_ETIMEDOUT⟩ ∧
      cf.cstatus = c.cstatus ∧ get_digest_cookie cf ≠ none := by
  refine ⟨digest_recv_loop_const_nothing _ 0, ?_⟩
  obtain ⟨c1, i, hg⟩ := get_digest_cookie_of_nonempty hfree
  obtain ⟨hfi, hc1⟩ := get_digest_cookie_some hg
  have hcst1 : c1.cstatus = Function.update c.cstatus i true := by rw [hc1]
  have e := do_digest_sync_timeout_eq od (fun _ => WD_SUCCESS) hg (fun m => rfl)
  have hcst : (releaseCookie (doSubmitState c1 i od) i).cstatus = c.cstatus := by
    rw [releaseCookie_eq]
    show Function.update (doSubmitState c1 i od).cstatus i false = c.cstatus
    rw [doSubmitState_cstatus, hcst1, Function.update_idem]
    funext j
    by_cases hj : j = i
    · subst hj
      rw [Function.update_same, hfi]
    · rw [Function.update_noteq hj]
  refine ⟨releaseCookie (doSubmitState c1 i od) i, e, hcst, ?_⟩
  intro hnone
  rw [get_digest_cookie_none_iff] at hnone
  obtain ⟨j, hj⟩ := hfree
  rw [freeSet, mem_freeOf] at hj
  have := hnone j
  rw [hcst] at this
  rw [hj] at this
  simp at this

/-- C6 witness: the theorem applied to the concrete session `ctx0` (which
has a free slot) and a concrete operation. -/
theorem C6_sync_timeout_releases_slot_witness :
    (freeSet ctx0).Nonempty ∧
    (digest_recv_loop (fun _ => RecvRes.nothing) 0 (MAX_DIGEST_RETRY_CNT + 1) =
      (-WD_ETIMEDOUT, none) ∧
    ∃ cf, wcrypto_do_digest (some ctx0) (some ⟨0, 5, 0, 32, false, 0⟩) none
        (fun _ => WD_SUCCESS) (fun _ => RecvRes.nothing) =
        ⟨some cf, some ⟨0, 5, 0, 32, false, 0⟩, -WD_ETIMEDOUT⟩ ∧
      cf.cstatus = ctx0.cstatus ∧ get_digest_cookie cf ≠ none) :=
  ⟨by decide, C6_sync_timeout_releases_slot ctx0 ⟨0, 5, 0, 32, false, 0⟩ (by decide)⟩

/-! ## Claim C7 -/

/-- C7 counterexample: the claim says poll pulls at most `max_count`
replies for every `max_count` including zero.  But the source tests
`--num` only after the loop body, so `num = 0` wraps the unsigned counter:
on a concrete queue state with one ready reply, `poll(q, 0)` pulls that
reply, invokes its callback and returns 1 > 0. -/
theorem C7_counterexample_poll_zero_pulls_one :
    (wcrypto_digest_poll ctx0 [PollItem.reply 0 msg0 false] 0).ret = 1 ∧
    (wcrypto_digest_poll ctx0 [PollItem.reply 0 msg0 false] 0).cbs.length = 1 := by
  have h := digest_poll_loop_spec [PollItem.reply 0 msg0 false] ctx0 (2 ^ 32) 0 []
    (by intro it hit; simp at hit; subst hit; rfl)
  have hfuel : wcrypto_digest_poll ctx0 [PollItem.reply 0 msg0 false] 0 =
      digest_poll_loop ctx0 [PollItem.reply 0 msg0 false] (2 ^ 32) 0 [] := by
    rw [wcrypto_digest_poll]
    norm_num
  rw [hfuel, h]
  norm_num

/-- C7 amended: for every queue state holding only well-formed ready
replies and every `max_count` with `1 ≤ max_count < 2 ^ 32`, a poll call
pulls at most `max_count` replies, stops early when the transport reports
nothing ready, and returns the count of completions processed so far (zero
when nothing was ready).  For `max_count = 0` the source's post-decrement
test wraps the 32-bit counter, so the body still runs (see the
counterexample): the bound does not hold there. -/
theorem C7_poll_bounded_count (c : DigestCtx) (pending : List PollItem) (num : Nat)
    (hall : ∀ it ∈ pending, it.isReply = true)
    (h1 : 1 ≤ num) (h2 : num < 2 ^ 32) :
    (wcrypto_digest_poll c pending num).ret = ((min num pending.length : Nat) : Int) ∧
    (wcrypto_digest_poll c pending num).cbs.length = min num pending.length ∧
    (wcrypto_digest_poll c pending num).pending =
      pending.drop (min num pending.length) := by
  have hfuel : wcrypto_digest_poll c pending num =
      digest_poll_loop c pending num 0 [] := by
    rw [wcrypto_digest_poll]
    have hmod : num % 2 ^ 32 = num := Nat.mod_eq_of_lt h2
    rw [hmod, if_neg (by omega)]
  rw [hfuel, digest_poll_loop_spec pending c num 0 [] hall]
  refine ⟨by simp, by simp, rfl⟩

/-- C7 witness: the amended theorem applied with two pending replies and
`max_count = 1`: exactly one reply is pulled, one remains. -/
theorem C7_poll_bounded_count_witness :
    (wcrypto_digest_poll ctx0 [PollItem.reply 0 msg0 false, PollItem.reply 1 msg0 false]
        1).ret = 1 ∧
    (wcrypto_digest_poll ctx0 [PollItem.reply 0 msg0 false, PollItem.reply 1 msg0 false]
        1).cbs.length = 1 ∧
    (wcrypto_digest_poll ctx0 [PollItem.reply 0 msg0 false, PollItem.reply 1 msg0 false]
        1).pending = [PollItem.reply 1 msg0 false] := by
  obtain ⟨ha, hb, hc⟩ := C7_poll_bounded_count ctx0
    [PollItem.reply 0 msg0 false, PollItem.reply 1 msg0 false] 1
    (by decide) (by decide) (by decide)
  exact ⟨by rw [ha]; decide, by rw [hb]; decide, by rw [hc]; decide⟩

/-! ## Claim C8 -/

/-- C8: every reply pulled during a poll pass that carries a
hardware-reported fault is not discarded: the fault is recorded into the
reply's result field, the owning session's callback is still invoked with
that reply and the stored user tag, the slot is released, and the reply
counts as a processed completion.  Stated for a pass that drains `pending`
(`pending.length ≤ max_count`): the return value is the full count, the
callback list is exactly the per-reply callback records (faulted replies
carrying `WD_HW_ERR`), nothing is left pending and every pulled reply's
slot is free afterwards. -/
theorem C8_poll_delivers_faulted_replies (c : DigestCtx) (pending : List PollItem)
    (num : Nat) (hall : ∀ it ∈ pending, it.isReply = true)
    (hlen : pending.length ≤ num) (h1 : 1 ≤ num) (h2 : num < 2 ^ 32) :
    (wcrypto_digest_poll c pending num).ret = ((pending.length : Nat) : Int) ∧
    (wcrypto_digest_poll c pending num).cbs = pending.map (cbOf c) ∧
    (wcrypto_digest_poll c pending num).pending = [] ∧
    (∀ (i : Fin 64) (resp : DigestMsg), PollItem.reply i resp true ∈ pending →
      ({ resp with result := WD_HW_ERR }, (c.cookies i).tag.wcrypto_tag.tag) ∈
        (wcrypto_digest_poll c pending num).cbs) ∧
    (∀ j : Fin 64, some j ∈ pending.map pollIdx →
      (wcrypto_digest_poll c pending num).ctx.cstatus j = false) := by
  have hfuel : wcrypto_digest_poll c pending num =
      digest_poll_loop c pending num 0 [] := by
    rw [wcrypto_digest_poll]
    have hmod : num % 2 ^ 32 = num := Nat.mod_eq_of_lt h2
    rw [hmod, if_neg (by omega)]
  have hmin : min num pending.length = pending.length := Nat.min_eq_right hlen
  have hspec := digest_poll_loop_spec pending c num 0 [] hall
  rw [hmin, List.take_length, List.drop_length] at hspec
  rw [hfuel, hspec]
  refine ⟨by simp, by simp, rfl, ?_, ?_⟩
  · intro i resp hmem
    simp only [List.nil_append]
    have : cbOf c (PollItem.reply i resp true) =
        ({ resp with result := WD_HW_ERR }, (c.cookies i).tag.wcrypto_tag.tag) := rfl
    rw [← this]
    exact List.mem_map_of_mem (cbOf c) hmem
  · intro j hj
    rw [releaseMany_cstatus, if_pos hj]

/-- A session with the first five slots occupied, as left by five
asynchronous submissions awaiting poll reclamation. -/
def ctx5 : DigestCtx := { ctx0 with cstatus := fun j => decide (j.val < 5) }

/-- Five pending replies on `ctx5`, the second and fourth carrying a
hardware fault. -/
def pending5 : List PollItem :=
  [PollItem.reply 0 msg0 false, PollItem.reply 1 msg0 true,
   PollItem.reply 2 msg0 false, PollItem.reply 3 msg0 true,
   PollItem.reply 4 msg0 false]

/-- C8 witness: the claim's own scenario — five ready replies, two with
hardware faults, `poll(q, 10)`: returns 5, invokes five callbacks of which
exactly two carry the fault status, leaves nothing pending and all five
slots free. -/
theorem C8_poll_delivers_faulted_replies_witness :
    (wcrypto_digest_poll ctx5 pending5 10).ret = 5 ∧
    (wcrypto_digest_poll ctx5 pending5 10).cbs.length = 5 ∧
    ((wcrypto_digest_poll ctx5 pending5 10).cbs.countP
      (fun p => p.1.result == WD_HW_ERR)) = 2 ∧
    (wcrypto_digest_poll ctx5 pending5 10).pending = [] ∧
    ∀ j : Fin 64, j.val < 5 → (wcrypto_digest_poll ctx5 pending5 10).ctx.cstatus j = false := by
  obtain ⟨ha, hb, hc, -, he⟩ := C8_poll_delivers_faulted_replies ctx5 pending5 10
    (by decide) (by decide) (by decide) (by decide)
  have hmem : ∀ j : Fin 64, j.val < 5 → some j ∈ pending5.map pollIdx := by decide
  refine ⟨by rw [ha]; rfl, by rw [hb]; rfl, by rw [hb]; rfl, hc, ?_⟩
  intro j hj
  exact he j (hmem j hj)

end WdDigest
